import Mathlib

/-!
Shallow embedding of the miniloop micro event-loop library (src/src/miniloop.c,
src/src/io.c, src/src/private.h, and src/unnamed/part_002 = signal.c).

Modelling conventions:
* One global context.  A C `ml_ctx_t *` argument is a `Bool` (`true` = points to
  the context, `false` = NULL).  A C `ml_t *` watcher argument is an
  `Option Nat`: `none` = NULL, `some i` = the watcher with identity `i` in the
  store.  A function that would dereference a NULL pointer returns `none`
  (undefined behavior); `some (r, s)` is a normal return of `r` in state `s`.
* The intrusive doubly-linked watcher list is modelled as a `List Nat` of
  watcher identities; `_MINILOOP_INSERT` is cons at the head and
  `_MINILOOP_REMOVE` is `List.erase` (faithful for the duplicate-free lists the
  library maintains).  `_MINILOOP_FOREACH` prefetches the next node before the
  body runs; it is modelled as recursion over the snapshot of the list taken at
  entry, which coincides with the pointer walk whenever the body mutates only
  the node currently visited (the discipline the source documents).
* Kernel calls are oracles passed as arguments: `epoll_ctl ADD` outcomes are
  `Option Nat` (`none` = success, `some e` = failure with `errno = e`), fd
  allocations are `Option Int` (`none` = failure, `some n` = fresh fd `n`),
  other fallible calls are `Bool` (`true` = success).  The set of open kernel
  fds is tracked in `openFds`, and kernel registration operations are appended
  to the trace `ktrace`.
* Callbacks are function pointers: a watcher stores `cb : Option Nat` (`none` =
  NULL), and an interpretation `CbInterp` maps a callback id, the watcher id,
  the `arg` value and the event bits to a state transformer.  Every invocation
  is also appended to the `calls` trace.
* `errno` is a `Nat` field of the state; the embedding records the errno values
  the source assigns or inspects explicitly (`EINVAL`, and the `epoll_ctl ADD`
  errno, which `_ml_watcher_start` compares against `EPERM`), and leaves
  `errno` untouched for other kernel failures whose value the source never
  inspects.
* Machine integers: C `int` fields are `Int`, the `uint32_t` event masks are
  `Nat` bitmasks with the Linux epoll constants.  No arithmetic in the source
  can overflow on the inputs modelled, so no wrap-around is applied.
-/

namespace Miniloop

/-! ## Event bits (Linux epoll constants, as used by miniloop.h) -/

def EPOLLIN : Nat := 1
def EPOLLPRI : Nat := 2
def EPOLLOUT : Nat := 4
def EPOLLERR : Nat := 8
def EPOLLHUP : Nat := 16
def EPOLLRDHUP : Nat := 8192
def EPOLLONESHOT : Nat := 1073741824
def EPOLLET : Nat := 2147483648

def MINILOOP_NONE : Nat := 0
def MINILOOP_ERROR : Nat := EPOLLERR
def MINILOOP_READ : Nat := EPOLLIN
def MINILOOP_WRITE : Nat := EPOLLOUT
def MINILOOP_PRI : Nat := EPOLLPRI
def MINILOOP_HUP : Nat := EPOLLHUP
def MINILOOP_RDHUP : Nat := EPOLLRDHUP
def MINILOOP_EDGE : Nat := EPOLLET
def MINILOOP_ONESHOT : Nat := EPOLLONESHOT

/-- Definition of `MINILOOP_EVENT_MASK` from private.h. -/
def MINILOOP_EVENT_MASK : Nat :=
  MINILOOP_ERROR ||| MINILOOP_READ ||| MINILOOP_WRITE ||| MINILOOP_PRI |||
  MINILOOP_RDHUP ||| MINILOOP_HUP ||| MINILOOP_EDGE ||| MINILOOP_ONESHOT

/-- Run flags from miniloop.h. -/
def MINILOOP_ONCE : Nat := 1

def MINILOOP_NONBLOCK : Nat := 2

/-- Errno values used by the source. -/
def EINVAL : Nat := 22

def EPERM : Nat := 1

/-! ## Data model -/

/-- Watcher kind tag `ml_type_t` from private.h. -/
inductive MlType where
  | io
  | signal
  | timer
  | fs
  | event
deriving DecidableEq, Repr

/-- Watcher record `ml_t`.  The kind-specific union `u` is modelled by the
`timeout`/`period` pair of the timer variant (the cron variant is never used by
the source).  `hasCtx` models whether the `ctx` back-pointer is non-NULL (there
is a single context in the model). -/
structure Watcher where
  wtype : MlType
  signo : Int
  fd : Int
  hasCtx : Bool
  active : Int
  events : Nat
  cb : Option Nat
  arg : Nat
  timeout : Int
  period : Int
deriving Repr

/-- Context record `ml_ctx_t` from private.h. -/
structure Ctx where
  running : Int
  inotify_fd : Int
  fd : Int
  maxevents : Int
  watchers : List Nat
  workaround : Nat
deriving Repr

/-- Kernel operations recorded in the trace: epoll add/modify/delete, timer
arm/disarm, and an eventfd write. -/
inductive KOp where
  | add (epfd : Int) (fd : Int) (events : Nat) (tag : Nat)
  | mod (epfd : Int) (fd : Int) (events : Nat) (tag : Nat)
  | del (epfd : Int) (fd : Int)
  | arm (fd : Int) (timeout period : Int)
  | disarm (fd : Int)
  | post (fd : Int)
deriving DecidableEq, Repr

/-- Whole-system state: the context, the caller-owned watcher store, the
`errno` variable, the set of open kernel fds, the trace of kernel registration
operations and the trace of callback invocations. -/
structure Sys where
  ctx : Ctx
  store : Nat → Watcher
  errno : Nat
  openFds : List Int
  ktrace : List KOp
  calls : List (Nat × Nat)

/-- Interpretation of callback function pointers: callback id, watcher id,
`arg`, event bits, then the state transformer the user code performs. -/
def CbInterp : Type := Nat → Nat → Nat → Nat → Sys → Sys

/-! ## Small state helpers -/

/-- Assign `errno`. -/
def setErrno (s : Sys) (e : Nat) : Sys := { s with errno := e }

/-- Update one watcher in the store. -/
def updW (st : Nat → Watcher) (i : Nat) (f : Watcher → Watcher) : Nat → Watcher :=
  fun j => if j = i then f (st j) else st j

/-- Apply a function to the watcher `i` of the state. -/
def modW (s : Sys) (i : Nat) (f : Watcher → Watcher) : Sys :=
  { s with store := updW s.store i f }

/-- Record that the kernel allocated fd `n` (it is now open). -/
def allocFd (s : Sys) (n : Int) : Sys := { s with openFds := n :: s.openFds }

/-- Model of `close(n)`: the fd is no longer open. -/
def closeFd (s : Sys) (n : Int) : Sys := { s with openFds := s.openFds.erase n }

/-- Append a kernel operation to the trace. -/
def pushK (s : Sys) (k : KOp) : Sys := { s with ktrace := s.ktrace ++ [k] }

/-- Model of a callback invocation `w->cb(w, w->arg, events)`: record the
invocation in the `calls` trace, then run the user code. -/
def invoke (cbI : CbInterp) (c : Nat) (i : Nat) (arg : Nat) (ev : Nat) (s : Sys) : Sys :=
  cbI c i arg ev { s with calls := s.calls ++ [(i, ev)] }

/-! ## Generic watcher primitives (miniloop.c) -/

/-- Embedding of `_ml_watcher_active` (miniloop.c): a NULL watcher is reported
inactive, otherwise the result is `w->active > 0`. -/
def _ml_watcher_active (w? : Option Nat) (s : Sys) : Bool :=
  match w? with
  | none => false
  | some i => (s.store i).active > 0

/-- Embedding of `_ml_watcher_init` (miniloop.c): reject a NULL context or
watcher with `EINVAL`, otherwise populate the fields of the watcher. -/
def _ml_watcher_init (ctxPtr : Bool) (w? : Option Nat) (ty : MlType) (cb : Option Nat)
    (arg : Nat) (fd : Int) (events : Nat) (s : Sys) : Int × Sys :=
  match w? with
  | none => (-1, setErrno s EINVAL)
  | some i =>
    if ¬ctxPtr then (-1, setErrno s EINVAL)
    else
      (0, modW s i (fun w =>
        { w with hasCtx := true, wtype := ty, active := 0, fd := fd, cb := cb,
                 arg := arg, events := events }))

/-- Embedding of `_ml_watcher_start` (miniloop.c).  `addRes` is the outcome of
the `epoll_ctl(ctx->fd, EPOLL_CTL_ADD, ...)` call: `none` = success, `some e` =
failure with `errno = e`.  On `EPERM` for a read-only I/O watcher on stdin the
context workaround flag is raised and the watcher becomes pseudo-registered
(`active = -1`); both non-failing paths insert the watcher at the head of the
context list. -/
def _ml_watcher_start (addRes : Option Nat) (w? : Option Nat) (s : Sys) : Int × Sys :=
  match w? with
  | none => (-1, setErrno s EINVAL)
  | some i =>
    let w := s.store i
    if w.fd < 0 ∨ ¬w.hasCtx then (-1, setErrno s EINVAL)
    else if w.active > 0 then (0, s)
    else
      let sA := pushK s (.add s.ctx.fd w.fd (w.events ||| EPOLLRDHUP) i)
      match addRes with
      | none =>
        let s1 := modW sA i (fun w => { w with active := 1 })
        (0, { s1 with ctx := { s1.ctx with watchers := i :: s1.ctx.watchers } })
      | some e =>
        let s1 := setErrno sA e
        if e ≠ EPERM then (-1, s1)
        else if w.wtype ≠ .io ∨ w.events ≠ MINILOOP_READ then (-1, s1)
        else if w.fd ≠ 0 then (-1, s1)
        else
          let s2 := { s1 with ctx := { s1.ctx with workaround := 1 } }
          let s3 := modW s2 i (fun w => { w with active := -1 })
          (0, { s3 with ctx := { s3.ctx with watchers := i :: s3.ctx.watchers } })

/-- Embedding of `_ml_watcher_stop` (miniloop.c): a NULL watcher is `EINVAL`;
a watcher that is not active (`active ≤ 0`) is left untouched with return 0;
otherwise clear `active`, remove the node from the context list, and issue the
`epoll_ctl` delete (`delOk` is its outcome). -/
def _ml_watcher_stop (delOk : Bool) (w? : Option Nat) (s : Sys) : Int × Sys :=
  match w? with
  | none => (-1, setErrno s EINVAL)
  | some i =>
    let w := s.store i
    if ¬(w.active > 0) then (0, s)
    else
      let s1 := modW s i (fun w => { w with active := 0 })
      let s2 := { s1 with ctx := { s1.ctx with watchers := s1.ctx.watchers.erase i } }
      let s3 := pushK s2 (.del s2.ctx.fd w.fd)
      if delOk then (0, s3) else (-1, s3)

/-- Embedding of `_ml_watcher_rearm` (miniloop.c): a NULL watcher or a negative
fd is `EINVAL`; otherwise issue `epoll_ctl(ctx->fd, EPOLL_CTL_MOD, w->fd, ev)`
with `ev.events = w->events | EPOLLRDHUP` (`modOk` is its outcome). -/
def _ml_watcher_rearm (modOk : Bool) (w? : Option Nat) (s : Sys) : Int × Sys :=
  match w? with
  | none => (-1, setErrno s EINVAL)
  | some i =>
    let w := s.store i
    if w.fd < 0 then (-1, setErrno s EINVAL)
    else
      let s1 := pushK s (.mod s.ctx.fd w.fd (w.events ||| EPOLLRDHUP) i)
      if modOk then (0, s1) else (-1, s1)

/-! ## I/O adapter (io.c) -/

/-- Oracles consumed by the I/O adapter operations: the `epoll_ctl` add outcome
used by a (re)start, and the delete/modify outcomes. -/
structure IoOra where
  addRes : Option Nat
  delOk : Bool
  modOk : Bool
deriving Repr

/-- Embedding of `ml_io_stop` (io.c): delegates to `_ml_watcher_stop`. -/
def ml_io_stop (delOk : Bool) (w? : Option Nat) (s : Sys) : Int × Sys :=
  _ml_watcher_stop delOk w? s

/-- Embedding of `ml_io_init` (io.c): reject a negative fd with `EINVAL`, then
`_ml_watcher_init` followed by `_ml_watcher_start`. -/
def ml_io_init (o : IoOra) (ctxPtr : Bool) (w? : Option Nat) (cb : Option Nat)
    (arg : Nat) (fd : Int) (events : Nat) (s : Sys) : Int × Sys :=
  if fd < 0 then (-1, setErrno s EINVAL)
  else
    let (r, s1) := _ml_watcher_init ctxPtr w? .io cb arg fd events s
    if r ≠ 0 then (-1, s1)
    else _ml_watcher_start o.addRes w? s1

/-- Embedding of `ml_io_set` (io.c): with the one-shot bit set on an active
watcher, perform a kernel modify via `_ml_watcher_rearm`; otherwise stop the
watcher (ignoring errors) and re-init it with the stored callback and arg.  On
a NULL watcher the re-init path dereferences `w->ctx`, which the model reports
as `none` (undefined behavior). -/
def ml_io_set (o : IoOra) (w? : Option Nat) (fd : Int) (events : Nat) (s : Sys) :
    Option (Int × Sys) :=
  if events &&& MINILOOP_ONESHOT ≠ 0 ∧ _ml_watcher_active w? s then
    some (_ml_watcher_rearm o.modOk w? s)
  else
    let s1 := (ml_io_stop o.delOk w? s).2
    match w? with
    | none => none
    | some i =>
      let w := s1.store i
      some (ml_io_init o w.hasCtx w? w.cb w.arg fd events s1)

/-- Embedding of `ml_io_start` (io.c): reissues `ml_io_set(w, w->fd,
w->events)`; on a NULL watcher the argument reads `w->fd` and `w->events`
dereference NULL, which the model reports as `none`. -/
def ml_io_start (o : IoOra) (w? : Option Nat) (s : Sys) : Option (Int × Sys) :=
  match w? with
  | none => none
  | some i => ml_io_set o w? (s.store i).fd (s.store i).events s

/-! ## Signal adapter (src/unnamed/part_002 = signal.c) -/

/-- Oracles consumed by the signal adapter: the fresh signalfd (or allocation
failure), the `sigprocmask` outcome, the `signalfd(w->fd, mask)` outcome, the
`epoll_ctl` add outcome of the start, and the delete outcome of a stop. -/
structure SigOra where
  sfdNew : Option Int
  maskOk : Bool
  setfdOk : Bool
  addRes : Option Nat
  delOk : Bool
deriving Repr

/-- Embedding of `ml_signal_stop` (signal.c): a watcher that is not active
(this includes NULL) returns 0 untouched; otherwise `_ml_watcher_stop`, then
close the signalfd and set `w->fd = -1`. -/
def ml_signal_stop (delOk : Bool) (w? : Option Nat) (s : Sys) : Int × Sys :=
  match w? with
  | none => (0, s)
  | some i =>
    if ¬((s.store i).active > 0) then (0, s)
    else
      let fd := (s.store i).fd
      let (r, s1) := _ml_watcher_stop delOk w? s
      if r ≠ 0 then (-1, s1)
      else
        let s2 := closeFd s1 fd
        (0, modW s2 i (fun w => { w with fd := -1 }))

/-- Tail of `ml_signal_set` (signal.c) after the stopped-watcher re-init
branch: block the signal process-wide with `sigprocmask`, update the signalfd
set to the singleton mask, then `_ml_watcher_start`. -/
def ml_signal_set_tail (o : SigOra) (w? : Option Nat) (s : Sys) : Int × Sys :=
  if ¬o.maskOk then (-1, s)
  else if ¬o.setfdOk then (-1, s)
  else _ml_watcher_start o.addRes w? s

mutual

/-- Embedding of `ml_signal_init` (signal.c): reject NULL with `EINVAL`, set
`w->fd = -1`, allocate the signalfd with an empty set, `_ml_watcher_init`, then
`ml_signal_set`; on a failure after the allocation the fresh fd is closed.
The mutual recursion with `ml_signal_set` is fuelled; `none` means the fuel ran
out (the source recursion depth is at most two). -/
def ml_signal_init (fuel : Nat) (o : SigOra) (ctxPtr : Bool) (w? : Option Nat)
    (cb : Option Nat) (arg : Nat) (signo : Int) (s : Sys) : Option (Int × Sys) :=
  match w? with
  | none => some (-1, setErrno s EINVAL)
  | some i =>
    if ¬ctxPtr then some (-1, setErrno s EINVAL)
    else
      let s1 := modW s i (fun w => { w with fd := -1 })
      match o.sfdNew with
      | none => some (-1, s1)
      | some fd =>
        let s2 := allocFd s1 fd
        let (r, s3) := _ml_watcher_init ctxPtr w? .signal cb arg fd MINILOOP_READ s2
        if r ≠ 0 then some (-1, closeFd s3 fd)
        else
          match fuel with
          | 0 => none
          | fuel' + 1 =>
            match ml_signal_set fuel' o w? signo s3 with
            | none => none
            | some (r2, s4) =>
              if r2 ≠ 0 then
                let s5 := (_ml_watcher_stop o.delOk w? s4).2
                some (-1, closeFd s5 fd)
              else some (0, s4)

/-- Embedding of `ml_signal_set` (signal.c): reject a NULL watcher or a NULL
`w->ctx` with `EINVAL`, remember `signo`, re-init through `ml_signal_init` if
the watcher was stopped (`w->fd < 0`), then run the mask/signalfd/start tail. -/
def ml_signal_set (fuel : Nat) (o : SigOra) (w? : Option Nat) (signo : Int)
    (s : Sys) : Option (Int × Sys) :=
  match w? with
  | none => some (-1, setErrno s EINVAL)
  | some i =>
    if ¬(s.store i).hasCtx then some (-1, setErrno s EINVAL)
    else
      let s1 := modW s i (fun w => { w with signo := signo })
      if (s1.store i).fd < 0 then
        match fuel with
        | 0 => none
        | fuel' + 1 =>
          match ml_signal_init fuel' o true w? ((s1.store i).cb) ((s1.store i).arg) signo s1 with
          | none => none
          | some (r, s2) =>
            if r ≠ 0 then some (-1, s2)
            else some (ml_signal_set_tail o w? s2)
      else some (ml_signal_set_tail o w? s1)

end

/-- Embedding of `ml_signal_start` (signal.c): reject NULL with `EINVAL`, stop
the watcher if it still holds a signalfd (`w->fd != -1`), then
`ml_signal_set(w, w->signo)`. -/
def ml_signal_start (fuel : Nat) (o : SigOra) (w? : Option Nat) (s : Sys) :
    Option (Int × Sys) :=
  match w? with
  | none => some (-1, setErrno s EINVAL)
  | some i =>
    let s1 := if (s.store i).fd ≠ -1 then (ml_signal_stop o.delOk w? s).2 else s
    ml_signal_set fuel o w? ((s1.store i).signo) s1

/-! ## Timer adapter

Modelled from the spec: src/timer.c is listed in the build (src/unnamed/part_000
names `$(SRCDIR)/src/timer.c`) but is not under src/, so the four timer
operations are modelled from spec §4.2 (Timer adapter), §4.3 and §7. -/

/-- Oracles for the modelled timer adapter: the fresh timerfd (or allocation
failure), the `epoll_ctl` add outcome of the start, and the delete outcome. -/
structure TimerOra where
  tfdNew : Option Int
  addRes : Option Nat
  delOk : Bool
deriving Repr

/-- Modelled from the spec: `ml_timer_set` of the missing src/timer.c.  Rejects
a null watcher or null context with an invalid-argument error; stores the
`(timeout, period)` pair; arms the kernel timer (initial expiration `timeout`,
interval `period`; the 1 ns minimum for `timeout = 0` is below the granularity
the trace records); then starts the watcher (registration + list insertion). -/
def ml_timer_set (o : TimerOra) (w? : Option Nat) (timeout period : Int) (s : Sys) :
    Int × Sys :=
  match w? with
  | none => (-1, setErrno s EINVAL)
  | some i =>
    if ¬(s.store i).hasCtx then (-1, setErrno s EINVAL)
    else
      let s1 := modW s i (fun w => { w with timeout := timeout, period := period })
      let s2 := if (s1.store i).fd ≥ 0 then pushK s1 (.arm (s1.store i).fd timeout period)
                else s1
      _ml_watcher_start o.addRes w? s2

/-- Modelled from the spec: `ml_timer_init` of the missing src/timer.c.
Rejects a null context or watcher with an invalid-argument error; allocates the
kernel timer fd (closing nothing on allocation failure, reporting -1); then
initializes the watcher fields and applies `ml_timer_set`. -/
def ml_timer_init (o : TimerOra) (ctxPtr : Bool) (w? : Option Nat) (cb : Option Nat)
    (arg : Nat) (timeout period : Int) (s : Sys) : Int × Sys :=
  match w? with
  | none => (-1, setErrno s EINVAL)
  | some _ =>
    if ¬ctxPtr then (-1, setErrno s EINVAL)
    else
      match o.tfdNew with
      | none => (-1, s)
      | some fd =>
        let s1 := allocFd s fd
        let (r, s2) := _ml_watcher_init ctxPtr w? .timer cb arg fd MINILOOP_READ s1
        if r ≠ 0 then (-1, closeFd s2 fd)
        else ml_timer_set o w? timeout period s2

/-- Modelled from the spec: `ml_timer_start` of the missing src/timer.c.
Re-applies the stored `(timeout, period)` pair. -/
def ml_timer_start (o : TimerOra) (w? : Option Nat) (s : Sys) : Int × Sys :=
  match w? with
  | none => (-1, setErrno s EINVAL)
  | some i => ml_timer_set o w? (s.store i).timeout (s.store i).period s

/-- Modelled from the spec: `ml_timer_stop` of the missing src/timer.c.
Rejects a null watcher with an invalid-argument error; disarms the kernel
timer, deregisters via `_ml_watcher_stop`, closes the timer fd and detaches it
(`fd = -1`). -/
def ml_timer_stop (delOk : Bool) (w? : Option Nat) (s : Sys) : Int × Sys :=
  match w? with
  | none => (-1, setErrno s EINVAL)
  | some i =>
    let fd := (s.store i).fd
    let s1 := if fd ≥ 0 then pushK s (.disarm fd) else s
    let (r, s2) := _ml_watcher_stop delOk w? s1
    let s3 := if fd ≥ 0 then closeFd s2 fd else s2
    (r, modW s3 i (fun w => { w with fd := -1 }))

/-! ## Event adapter

Modelled from the spec: src/event.c is listed in the build (src/unnamed/part_000
names `$(SRCDIR)/src/event.c`) but is not under src/, so the event operations
are modelled from spec §4.2 (Event adapter) and §7. -/

/-- Oracles for the modelled event adapter: the fresh eventfd (or allocation
failure), the `epoll_ctl` add outcome, and the delete outcome. -/
structure EventOra where
  efdNew : Option Int
  addRes : Option Nat
  delOk : Bool
deriving Repr

/-- Modelled from the spec: `ml_event_init` of the missing src/event.c.
Rejects a null context or watcher with an invalid-argument error; allocates a
semaphore-style eventfd initialized to zero; initializes the watcher and
registers it for read readiness. -/
def ml_event_init (o : EventOra) (ctxPtr : Bool) (w? : Option Nat) (cb : Option Nat)
    (arg : Nat) (s : Sys) : Int × Sys :=
  match w? with
  | none => (-1, setErrno s EINVAL)
  | some _ =>
    if ¬ctxPtr then (-1, setErrno s EINVAL)
    else
      match o.efdNew with
      | none => (-1, s)
      | some fd =>
        let s1 := allocFd s fd
        let (r, s2) := _ml_watcher_init ctxPtr w? .event cb arg fd MINILOOP_READ s1
        if r ≠ 0 then (-1, closeFd s2 fd)
        else _ml_watcher_start o.addRes w? s2

/-- Modelled from the spec: `ml_event_post` of the missing src/event.c.
Rejects a null watcher with an invalid-argument error; writes 1 to the event
fd, waking the loop. -/
def ml_event_post (w? : Option Nat) (s : Sys) : Int × Sys :=
  match w? with
  | none => (-1, setErrno s EINVAL)
  | some i => (0, pushK s (.post (s.store i).fd))

/-- Modelled from the spec: `ml_event_stop` of the missing src/event.c.
Rejects a null watcher with an invalid-argument error; deregisters via
`_ml_watcher_stop`, closes the event fd and detaches it. -/
def ml_event_stop (delOk : Bool) (w? : Option Nat) (s : Sys) : Int × Sys :=
  match w? with
  | none => (-1, setErrno s EINVAL)
  | some i =>
    let fd := (s.store i).fd
    let (r, s1) := _ml_watcher_stop delOk w? s
    let s2 := if fd ≥ 0 then closeFd s1 fd else s1
    (r, modW s2 i (fun w => { w with fd := -1 }))

/-! ## Context init and exit (miniloop.c) -/

/-- Embedding of `_init` (miniloop.c): allocate the epoll fd and the inotify fd
(`epollRes` / `inotifyRes`: `none` = allocation failure, `some n` = fresh open
fd `n`); if either allocation failed, return -1 — the source does not close the
fd whose allocation succeeded.  With `close_old` set, close the previously
stored fds (inotify first); finally store the new fds in the context. -/
def _init (closeOld : Bool) (epollRes inotifyRes : Option Int) (s : Sys) : Int × Sys :=
  let s1 := match epollRes with
    | some n => allocFd s n
    | none => s
  let s2 := match inotifyRes with
    | some n => allocFd s1 n
    | none => s1
  match epollRes, inotifyRes with
  | some f, some g =>
    let s3 := if closeOld then closeFd (closeFd s2 s2.ctx.inotify_fd) s2.ctx.fd else s2
    (0, { s3 with ctx := { s3.ctx with inotify_fd := g, fd := f } })
  | _, _ => (-1, s2)

/-- Model of `memset(ctx, 0, sizeof(*ctx))`: all context fields zeroed, the
watcher list head NULL. -/
def zeroCtx : Ctx :=
  { running := 0, inotify_fd := 0, fd := 0, maxevents := 0, watchers := [],
    workaround := 0 }

/-- Embedding of `ml_init` (miniloop.c): reject a NULL context or
`maxevents < 1` with `EINVAL`; zero the context, store `maxevents`, then
`_init` with `close_old = 0`. -/
def ml_init (epollRes inotifyRes : Option Int) (ctxPtr : Bool) (maxevents : Int)
    (s : Sys) : Int × Sys :=
  if ¬ctxPtr ∨ maxevents < 1 then (-1, setErrno s EINVAL)
  else
    let s1 := { s with ctx := { zeroCtx with maxevents := maxevents } }
    _init false epollRes inotifyRes s1

/-- Embedding of the `_MINILOOP_FOREACH` body of `ml_exit` (miniloop.c) over the
list snapshot: remove each watcher from the list, skip it if it is not active
(`active ≤ 0`, which leaves pseudo-registered watchers with `active = -1`),
otherwise stop it through its kind-specific stop (the `MINILOOP_FS_TYPE` case is
a FIXME in the source and does nothing).  `delOk i` is the `epoll_ctl` delete
outcome for watcher `i`. -/
def exitStep (delOk : Nat → Bool) (i : Nat) (s : Sys) : Sys :=
  let s1 := { s with ctx := { s.ctx with watchers := s.ctx.watchers.erase i } }
  if ¬((s1.store i).active > 0) then s1
  else
    match (s1.store i).wtype with
    | .timer => (ml_timer_stop (delOk i) (some i) s1).2
    | .io => (ml_io_stop (delOk i) (some i) s1).2
    | .signal => (ml_signal_stop (delOk i) (some i) s1).2
    | .fs => s1
    | .event => (ml_event_stop (delOk i) (some i) s1).2

/-- Iteration of `exitStep` over the list snapshot taken at entry of the
`ml_exit` loop. -/
def exitLoop (delOk : Nat → Bool) : List Nat → Sys → Sys
  | [], s => s
  | i :: rest, s => exitLoop delOk rest (exitStep delOk i s)

/-- Embedding of `ml_exit` (miniloop.c): reject a NULL context with `EINVAL`;
run the per-watcher stop loop; clear the list head and the running flag; close
the epoll fd if it is valid and set it to -1. -/
def ml_exit (delOk : Nat → Bool) (ctxPtr : Bool) (s : Sys) : Int × Sys :=
  if ¬ctxPtr then (-1, setErrno s EINVAL)
  else
    let s1 := exitLoop delOk s.ctx.watchers s
    let s2 := { s1 with ctx := { s1.ctx with watchers := [], running := 0 } }
    let s3 := if s2.ctx.fd > -1 then closeFd s2 s2.ctx.fd else s2
    (0, { s3 with ctx := { s3.ctx with fd := -1 } })

/-! ## Dispatcher (`ml_run`, miniloop.c) -/

/-- One ready record of an `epoll_wait` batch: the watcher tag stored at
registration (`ee[i].data.ptr`), the raw event bits (`ee[i].events`), and the
outcomes of the kernel calls the pre-callback handling may issue: the drain
`read` on a signal/timer/event fd, the `epoll_ctl` delete of a stop, and the
oracle of a signal-restart attempt. -/
structure ReadyRec where
  wid : Nat
  ev : Nat
  drainOk : Bool
  delOk : Bool
  sig : SigOra
deriving Repr

/-- Embedding of the kind-specific pre-callback handling (the `switch` in the
dispatch loop of `ml_run`): returns the possibly updated event bits and state,
or `none` if the signal-restart fuel ran out. -/
def preCallback (fuel : Nat) (r : ReadyRec) (s : Sys) : Option (Nat × Sys) :=
  match (s.store r.wid).wtype with
  | .io =>
    if r.ev &&& (EPOLLHUP ||| EPOLLERR) ≠ 0 then
      some (r.ev, (ml_io_stop r.delOk (some r.wid) s).2)
    else some (r.ev, s)
  | .signal =>
    if ¬r.drainOk then
      match ml_signal_start fuel r.sig (some r.wid) s with
      | none => none
      | some (rs, s1) =>
        if rs ≠ 0 then some (MINILOOP_ERROR, (ml_signal_stop r.sig.delOk (some r.wid) s1).2)
        else some (r.ev, s1)
    else some (r.ev, s)
  | .timer =>
    let (e0, s0) :=
      if ¬r.drainOk then (MINILOOP_ERROR, (ml_timer_stop r.delOk (some r.wid) s).2)
      else (r.ev, s)
    let s1 := if (s0.store r.wid).period = 0 then
        modW s0 r.wid (fun w => { w with timeout := 0 })
      else s0
    let s2 := if (s1.store r.wid).timeout = 0 then (ml_timer_stop r.delOk (some r.wid) s1).2
      else s1
    some (e0, s2)
  | .fs => some (r.ev, s)
  | .event =>
    if ¬r.drainOk then some (MINILOOP_HUP, s) else some (r.ev, s)

/-- Embedding of the dispatch `for` loop of `ml_run` (miniloop.c): iterate the
ready records while `ctx->running` is non-zero; per record apply the
kind-specific pre-callback handling, then — as the last action touching the
watcher — invoke its callback (if non-NULL) with the events masked to
`MINILOOP_EVENT_MASK`. -/
def dispatchRecs (cbI : CbInterp) (fuel : Nat) : List ReadyRec → Sys → Option Sys
  | [], s => some s
  | r :: rest, s =>
    if s.ctx.running = 0 then some s
    else
      match preCallback fuel r s with
      | none => none
      | some (ev, s1) =>
        let w1 := s1.store r.wid
        let s2 :=
          match w1.cb with
          | some c => invoke cbI c r.wid w1.arg (ev &&& MINILOOP_EVENT_MASK) s1
          | none => s1
        dispatchRecs cbI fuel rest s2

/-- Behavior of the kernel `epoll_wait` as seen by the retry loop of `ml_run`:
either a ready batch, an `EINTR` interruption followed by the behavior of the
retried wait, or an unrecoverable failure. -/
inductive WaitRes where
  | ready (recs : List ReadyRec)
  | intr (rest : WaitRes)
  | fatal
deriving Repr

/-- Outcome of the `epoll_wait` retry loop: a batch of ready records, a break
with negative `nfds` (the running flag was observed cleared after a failed
wait), or the unrecoverable-failure path. -/
inductive WaitOut where
  | gotEvents (recs : List ReadyRec)
  | breakNeg
  | fatalErr
deriving Repr

/-- Embedding of the `while ((nfds = epoll_wait(...)) < 0)` retry loop of
`ml_run`: on a failed wait, first check the running flag (break), then retry on
`EINTR`, otherwise take the unrecoverable path. -/
def waitLoop : WaitRes → Sys → WaitOut
  | .ready recs, _ => .gotEvents recs
  | .intr rest, s => if s.ctx.running = 0 then .breakNeg else waitLoop rest s
  | .fatal, s => if s.ctx.running = 0 then .breakNeg else .fatalErr

/-- Deactivate a pseudo-registered watcher and remove it from the context list
(the empty-probe branch of the workaround pass of `ml_run`). -/
def deactivateRemove (i : Nat) (s : Sys) : Sys :=
  let s1 := modW s i (fun w => { w with active := 0 })
  { s1 with ctx := { s1.ctx with watchers := s1.ctx.watchers.erase i } }

/-- Embedding of the workaround pass of `ml_run` (miniloop.c): walk the list
snapshot; skip watchers that are not pseudo-registered (`active ≠ -1`) or have
no callback; otherwise, if the non-destructive readiness probe `has_data`
(modelled by the oracle `probe`) shows no data, deactivate the watcher and
remove it from the list; count a rerun and invoke the callback with
`MINILOOP_READ`.  Returns the rerun count and the final state. -/
def waPass (cbI : CbInterp) (probe : Nat → Bool) : List Nat → Sys → Nat × Sys
  | [], s => (0, s)
  | i :: rest, s =>
    let w := s.store i
    match w.cb with
    | none => waPass cbI probe rest s
    | some c =>
      if w.active ≠ -1 then waPass cbI probe rest s
      else
        let s1 := if ¬probe i then deactivateRemove i s else s
        let s2 := invoke cbI c i w.arg MINILOOP_READ s1
        let (n, s3) := waPass cbI probe rest s2
        (n + 1, s3)

/-- Oracles consumed by one iteration of the main loop of `ml_run`: the
`has_data` probe results of the workaround pass, the `epoll_wait` behavior, and
the `epoll_ctl` delete outcomes of the `ml_exit` on the unrecoverable path. -/
structure IterOra where
  probe : Nat → Bool
  wres : WaitRes
  exDel : Nat → Bool

/-- Result of one iteration of the main loop of `ml_run`: `next` is the
`continue` of the rerun path, `done` is a `return` out of `ml_run`, and
`dispatched` fell through a dispatch (the `MINILOOP_ONCE` check decides). -/
inductive IterRes where
  | next (s : Sys)
  | done (r : Int) (s : Sys)
  | dispatched (s : Sys)

/-- Embedding of the wait-and-dispatch tail of one `ml_run` iteration, entered
only when the workaround pass requested no rerun: run the `epoll_wait` retry
loop from the given state and dispatch the ready batch; on an unrecoverable
wait failure, `ml_exit` and return -2. -/
def iterWait (cbI : CbInterp) (fuel : Nat) (wres : WaitRes) (exDel : Nat → Bool)
    (s : Sys) : Option IterRes :=
  match waitLoop wres s with
  | .gotEvents recs =>
    match dispatchRecs cbI fuel recs s with
    | none => none
    | some s3 => some (.dispatched s3)
  | .breakNeg => some (.done 0 s)
  | .fatalErr => some (.done (-2) (ml_exit exDel true s).2)

/-- Embedding of one iteration of the `while (ctx->running && ctx->watchers)`
loop of `ml_run`: run the workaround pass when the workaround flag is set; if a
rerun was requested, restart the iteration (this `continue` precedes the
`ctx->workaround = 0` assignment, so it does not clear the workaround flag, and
it does not reach the kernel wait); otherwise clear the workaround flag and run
the wait-and-dispatch tail. -/
def ml_run_iter (cbI : CbInterp) (fuel : Nat) (o : IterOra) (s : Sys) : Option IterRes :=
  let (rerun, s1) :=
    if s.ctx.workaround ≠ 0 then waPass cbI o.probe s.ctx.watchers s else (0, s)
  if rerun ≠ 0 then some (.next s1)
  else iterWait cbI fuel o.wres o.exDel { s1 with ctx := { s1.ctx with workaround := 0 } }

/-- Embedding of the dormant-timer pass at the top of `ml_run`: walk the list
snapshot and reissue `ml_timer_set(w, w->u.t.timeout, w->u.t.period)` for every
timer watcher (`tora i` supplies the kernel oracles of watcher `i`). -/
def timerSetupLoop (tora : Nat → TimerOra) : List Nat → Sys → Sys
  | [], s => s
  | i :: rest, s =>
    let s1 :=
      if (s.store i).wtype = .timer then
        (ml_timer_set (tora i) (some i) (s.store i).timeout (s.store i).period s).2
      else s
    timerSetupLoop tora rest s1

/-- Embedding of the main loop of `ml_run`: while the running flag is set and
the watcher list is non-empty, run one iteration per supplied oracle (`none` =
the supplied oracles ran out before the loop ended).  A `dispatched` iteration
ends the loop with 0 when `MINILOOP_ONCE` is set. -/
def mlRunLoop (cbI : CbInterp) (fuel : Nat) (flags : Nat) :
    List IterOra → Sys → Option (Int × Sys)
  | [], s =>
    if s.ctx.running = 0 ∨ s.ctx.watchers = [] then some (0, s) else none
  | o :: rest, s =>
    if s.ctx.running = 0 ∨ s.ctx.watchers = [] then some (0, s)
    else
      match ml_run_iter cbI fuel o s with
      | none => none
      | some (.next s1) => mlRunLoop cbI fuel flags rest s1
      | some (.done r s1) => some (r, s1)
      | some (.dispatched s1) =>
        if flags &&& MINILOOP_ONCE ≠ 0 then some (0, s1)
        else mlRunLoop cbI fuel flags rest s1

/-- Embedding of `ml_run` (miniloop.c): reject a NULL or uninitialized context
(`ctx->fd < 0`) with `EINVAL`; the wait timeout computed from
`MINILOOP_NONBLOCK` only parameterizes the kernel wait, whose outcomes the
per-iteration oracles model; set `running = 1`; start all dormant timers; then
run the main loop. -/
def ml_run (cbI : CbInterp) (fuel : Nat) (tora : Nat → TimerOra) (ors : List IterOra)
    (ctxPtr : Bool) (flags : Nat) (s : Sys) : Option (Int × Sys) :=
  if ¬ctxPtr ∨ s.ctx.fd < 0 then some (-1, setErrno s EINVAL)
  else
    let s1 := { s with ctx := { s.ctx with running := 1 } }
    let s2 := timerSetupLoop tora s1.ctx.watchers s1
    mlRunLoop cbI fuel flags ors s2

/-! ## Concrete base states used by witnesses and counterexamples -/

/-- A watcher record with all fields in their detached/zero configuration. -/
def defaultWatcher : Watcher :=
  { wtype := .io, signo := 0, fd := -1, hasCtx := false, active := 0,
    events := 0, cb := none, arg := 0, timeout := 0, period := 0 }

/-- Base system state: zeroed context, all watchers detached, nothing open. -/
def sys0 : Sys :=
  { ctx := zeroCtx, store := fun _ => defaultWatcher, errno := 0, openFds := [],
    ktrace := [], calls := [] }

/-! ## Concrete states and oracles used by witnesses and counterexamples -/

/-- I/O oracle whose `epoll_ctl` add fails with `EPERM` (the stdin-redirect
rejection). -/
def ioOraPerm : IoOra := { addRes := some EPERM, delOk := true, modOk := true }

/-- I/O oracle whose kernel calls all succeed. -/
def ioOraOk : IoOra := { addRes := none, delOk := true, modOk := true }

/-- Result of `ml_io_init(ctx, w0, cb7, arg, fd = 0, MINILOOP_READ)` on the base
state when `epoll_ctl` rejects stdin with `EPERM`: watcher 0 is
pseudo-registered (`active = -1`), listed, and the workaround flag is set. -/
def sysPseudo : Sys := (ml_io_init ioOraPerm true (some 0) (some 7) 0 0 MINILOOP_READ sys0).2

/-- Signal oracle whose kernel calls all succeed (fresh signalfd 0). -/
def sigOraT : SigOra :=
  { sfdNew := some 0, maskOk := true, setfdOk := true, addRes := none, delOk := true }

/-- Callback interpretation that performs no state change. -/
def cbTriv : CbInterp := fun _ _ _ _ s => s

/-- Timer oracles for contexts without timer watchers. -/
def toraNone : Nat → TimerOra := fun _ => { tfdNew := none, addRes := none, delOk := true }

def sC1base : Sys :=
  { sys0 with
    ctx := { zeroCtx with fd := 3, maxevents := 2, watchers := [0, 1] },
    store := fun i =>
      if i = 0 then
        { defaultWatcher with
          wtype := .io, fd := 5, hasCtx := true, active := 1,
          events := MINILOOP_READ, cb := some 0 }
      else
        { defaultWatcher with
          wtype := .io, fd := 6, hasCtx := true, active := 1,
          events := MINILOOP_READ, cb := some 1 } }

/-- Variant of `sC1base` with the running flag set, as inside a `ml_run`
dispatch cycle. -/
def sC1run : Sys := { sC1base with ctx := { sC1base.ctx with running := 1 } }

def cbStop : CbInterp := fun c _ _ _ s =>
  if c = 0 then { s with ctx := { s.ctx with running := 0 } } else s

def recC1 (i : Nat) : ReadyRec :=
  { wid := i, ev := MINILOOP_READ, drainOk := true, delOk := true, sig := sigOraT }

def orsC1 : List IterOra :=
  [{ probe := fun _ => false, wres := .ready [recC1 0, recC1 1], exDel := fun _ => true }]

/-- Base state with watcher 0 populated as an inactive I/O watcher on fd 5
(the configuration `_ml_watcher_init` leaves behind). -/
def sPrep : Sys :=
  { sys0 with
    store := fun i =>
      if i = 0 then
        { defaultWatcher with wtype := .io, fd := 5, hasCtx := true, cb := some 0 }
      else defaultWatcher }

/-- State after one successful generic start of watcher 0 from `sPrep`. -/
def sStart1 : Sys := (_ml_watcher_start none (some 0) sPrep).2

/-- Projection of an iteration result: the workaround flag of the state carried
by a rerun `continue`. -/
def iterNextWorkaround : Option IterRes → Option Nat
  | some (.next s) => some s.ctx.workaround
  | _ => none

/-! ## Registry coherence (claim C6): invariant and operation steps -/

/-- Registry coherence invariant: the watcher list has no duplicates, every
watcher is plainly inactive or plainly registered (`active ∈ {0, 1}`, i.e. no
pseudo-registration), a watcher is on the list iff `active ≠ 0`, and no
registered watcher has the unimplemented `Fs` kind. -/
def RegInv (s : Sys) : Prop :=
  s.ctx.watchers.Nodup ∧
  ∀ i, ((s.store i).active = 0 ∨ (s.store i).active = 1) ∧
       ((s.store i).active ≠ 0 ↔ i ∈ s.ctx.watchers) ∧
       ((s.store i).active ≠ 0 → (s.store i).wtype ≠ MlType.fs)

/-- One watcher start, watcher stop, or context exit operation.  A start step
is restricted to watchers of an implemented kind and to `epoll_ctl` outcomes
that do not take the permission-denied stdin path (the path that creates a
pseudo-registered watcher). -/
inductive CohStep : Sys → Sys → Prop where
  | start (i : Nat) (res : Option Nat) (s : Sys)
      (hfs : (s.store i).wtype ≠ MlType.fs)
      (hnp : ¬(res = some EPERM ∧ (s.store i).wtype = MlType.io ∧
               (s.store i).events = MINILOOP_READ ∧ (s.store i).fd = 0)) :
      CohStep s (_ml_watcher_start res (some i) s).2
  | stop (i : Nat) (dOk : Bool) (s : Sys) :
      CohStep s (_ml_watcher_stop dOk (some i) s).2
  | stopIo (i : Nat) (dOk : Bool) (s : Sys) :
      CohStep s (ml_io_stop dOk (some i) s).2
  | stopSignal (i : Nat) (dOk : Bool) (s : Sys) :
      CohStep s (ml_signal_stop dOk (some i) s).2
  | stopTimer (i : Nat) (dOk : Bool) (s : Sys) :
      CohStep s (ml_timer_stop dOk (some i) s).2
  | stopEvent (i : Nat) (dOk : Bool) (s : Sys) :
      CohStep s (ml_event_stop dOk (some i) s).2
  | exit (ex : Nat → Bool) (s : Sys) :
      CohStep s (ml_exit ex true s).2

/-! ## Shared helper lemmas -/

/-- Second component of `_ml_watcher_stop` on an active watcher: the state with
the watcher deactivated, the node erased from the list, and the delete traced,
whatever the delete outcome. -/
theorem watcher_stop_snd_active (dOk : Bool) (i : Nat) (s : Sys)
    (h : 0 < (s.store i).active) :
    (_ml_watcher_stop dOk (some i) s).2 =
      pushK { modW s i (fun w => { w with active := 0 }) with
              ctx := { s.ctx with watchers := s.ctx.watchers.erase i } }
        (KOp.del s.ctx.fd (s.store i).fd) := by
  have h' : ¬¬(0 : Int) < (s.store i).active := not_not_intro h
  cases dOk <;> simp [_ml_watcher_stop, h', modW]

/-- Second component of `_ml_watcher_stop` on a watcher that is not active: the
state is unchanged. -/
theorem watcher_stop_snd_inactive (dOk : Bool) (i : Nat) (s : Sys)
    (h : ¬0 < (s.store i).active) :
    (_ml_watcher_stop dOk (some i) s) = (0, s) := by
  simp [_ml_watcher_stop, h]

/-- Full result of `_ml_watcher_stop` on an active watcher. -/
theorem watcher_stop_pair_active (dOk : Bool) (i : Nat) (s : Sys)
    (h : 0 < (s.store i).active) :
    _ml_watcher_stop dOk (some i) s =
      ((if dOk then (0 : Int) else -1),
       pushK { modW s i (fun w => { w with active := 0 }) with
               ctx := { s.ctx with watchers := s.ctx.watchers.erase i } }
         (KOp.del s.ctx.fd ((s.store i).fd))) := by
  cases dOk <;> simp [_ml_watcher_stop, not_not_intro h, modW]

/-- Frame of `_ml_watcher_stop` on the registry: list effect, deactivation of
the stopped watcher, preservation of every kind tag and of the activity of all
other watchers. -/
theorem watcher_stop_shape (dOk : Bool) (i : Nat) (s : Sys) :
    (((_ml_watcher_stop dOk (some i) s).2).ctx.watchers =
       if 0 < (s.store i).active then s.ctx.watchers.erase i else s.ctx.watchers) ∧
    ((((_ml_watcher_stop dOk (some i) s).2).store i).active =
       if 0 < (s.store i).active then 0 else (s.store i).active) ∧
    (∀ j, (((_ml_watcher_stop dOk (some i) s).2).store j).wtype = (s.store j).wtype) ∧
    (∀ j, j ≠ i → (((_ml_watcher_stop dOk (some i) s).2).store j).active = (s.store j).active) := by
  by_cases h : 0 < (s.store i).active
  · rw [watcher_stop_pair_active dOk i s h]
    refine ⟨by simp [pushK, h], by simp [pushK, modW, updW, h], ?_, ?_⟩
    · intro j
      by_cases hj : j = i <;> simp [pushK, modW, updW, hj]
    · intro j hj
      simp [pushK, modW, updW, hj]
  · rw [watcher_stop_snd_inactive dOk i s h]
    simp [h]

/-- Frame of `ml_signal_stop` on the registry (same shape as the generic
stop; the extra fd bookkeeping touches neither the list nor any activity). -/
theorem signal_stop_shape (dOk : Bool) (i : Nat) (s : Sys) :
    (((ml_signal_stop dOk (some i) s).2).ctx.watchers =
       if 0 < (s.store i).active then s.ctx.watchers.erase i else s.ctx.watchers) ∧
    ((((ml_signal_stop dOk (some i) s).2).store i).active =
       if 0 < (s.store i).active then 0 else (s.store i).active) ∧
    (∀ j, (((ml_signal_stop dOk (some i) s).2).store j).wtype = (s.store j).wtype) ∧
    (∀ j, j ≠ i → (((ml_signal_stop dOk (some i) s).2).store j).active = (s.store j).active) := by
  by_cases h : 0 < (s.store i).active
  · rw [ml_signal_stop, watcher_stop_pair_active dOk i s h]
    cases dOk <;>
      refine ⟨by simp [pushK, closeFd, modW, updW, h], by simp [pushK, closeFd, modW, updW, h],
              fun j => ?_, fun j hj => ?_⟩ <;>
      by_cases hj' : j = i <;> simp_all [pushK, closeFd, modW, updW, h]
  · simp [ml_signal_stop, h]

/-- Frame of the spec-modelled `ml_timer_stop` on the registry. -/
theorem timer_stop_shape (dOk : Bool) (i : Nat) (s : Sys) :
    (((ml_timer_stop dOk (some i) s).2).ctx.watchers =
       if 0 < (s.store i).active then s.ctx.watchers.erase i else s.ctx.watchers) ∧
    ((((ml_timer_stop dOk (some i) s).2).store i).active =
       if 0 < (s.store i).active then 0 else (s.store i).active) ∧
    (∀ j, (((ml_timer_stop dOk (some i) s).2).store j).wtype = (s.store j).wtype) ∧
    (∀ j, j ≠ i → (((ml_timer_stop dOk (some i) s).2).store j).active = (s.store j).active) := by
  by_cases hfd : (s.store i).fd ≥ 0 <;> by_cases h : 0 < (s.store i).active
  · have hp := watcher_stop_pair_active dOk i (pushK s (KOp.disarm ((s.store i).fd))) h
    simp only [ml_timer_stop, if_pos hfd, hp]
    cases dOk <;>
      refine ⟨by simp [pushK, closeFd, modW, updW, h], by simp [pushK, closeFd, modW, updW, h],
              fun j => ?_, fun j hj => ?_⟩ <;>
      by_cases hj' : j = i <;> simp_all [pushK, closeFd, modW, updW, h]
  · have hp := watcher_stop_snd_inactive dOk i (pushK s (KOp.disarm ((s.store i).fd))) h
    simp only [ml_timer_stop, if_pos hfd, hp]
    refine ⟨by simp [pushK, closeFd, modW, h], by simp [pushK, closeFd, modW, updW, h],
            fun j => ?_, fun j hj => ?_⟩ <;>
      by_cases hj' : j = i <;> simp_all [pushK, closeFd, modW, updW, h]
  · have hp := watcher_stop_pair_active dOk i s h
    simp only [ml_timer_stop, if_neg hfd, hp]
    cases dOk <;>
      refine ⟨by simp [pushK, closeFd, modW, updW, h], by simp [pushK, closeFd, modW, updW, h],
              fun j => ?_, fun j hj => ?_⟩ <;>
      by_cases hj' : j = i <;> simp_all [pushK, closeFd, modW, updW, h]
  · have hp := watcher_stop_snd_inactive dOk i s h
    simp only [ml_timer_stop, if_neg hfd, hp]
    refine ⟨by simp [modW, h], by simp [modW, updW, h], fun j => ?_, fun j hj => ?_⟩ <;>
      by_cases hj' : j = i <;> simp_all [modW, updW, h]

/-- Frame of the spec-modelled `ml_event_stop` on the registry. -/
theorem event_stop_shape (dOk : Bool) (i : Nat) (s : Sys) :
    (((ml_event_stop dOk (some i) s).2).ctx.watchers =
       if 0 < (s.store i).active then s.ctx.watchers.erase i else s.ctx.watchers) ∧
    ((((ml_event_stop dOk (some i) s).2).store i).active =
       if 0 < (s.store i).active then 0 else (s.store i).active) ∧
    (∀ j, (((ml_event_stop dOk (some i) s).2).store j).wtype = (s.store j).wtype) ∧
    (∀ j, j ≠ i → (((ml_event_stop dOk (some i) s).2).store j).active = (s.store j).active) := by
  by_cases h : 0 < (s.store i).active <;> by_cases hfd : (s.store i).fd ≥ 0
  · have hp := watcher_stop_pair_active dOk i s h
    simp only [ml_event_stop, hp, if_pos hfd]
    cases dOk <;>
      refine ⟨by simp [pushK, closeFd, modW, updW, h],
              by simp [pushK, closeFd, modW, updW, h],
              fun j => ?_, fun j hj => ?_⟩ <;>
      by_cases hj' : j = i <;> simp_all [pushK, closeFd, modW, updW, h]
  · have hp := watcher_stop_pair_active dOk i s h
    simp only [ml_event_stop, hp, if_neg hfd]
    cases dOk <;>
      refine ⟨by simp [pushK, closeFd, modW, updW, h],
              by simp [pushK, closeFd, modW, updW, h],
              fun j => ?_, fun j hj => ?_⟩ <;>
      by_cases hj' : j = i <;> simp_all [pushK, closeFd, modW, updW, h]
  · have hp := watcher_stop_snd_inactive dOk i s h
    simp only [ml_event_stop, hp, if_pos hfd]
    refine ⟨by simp [closeFd, modW, h], by simp [closeFd, modW, updW, h],
            fun j => ?_, fun j hj => ?_⟩ <;>
      by_cases hj' : j = i <;> simp_all [closeFd, modW, updW, h]
  · have hp := watcher_stop_snd_inactive dOk i s h
    simp only [ml_event_stop, hp, if_neg hfd]
    refine ⟨by simp [modW, h], by simp [modW, updW, h],
            fun j => ?_, fun j hj => ?_⟩ <;>
      by_cases hj' : j = i <;> simp_all [modW, updW, h]

/-- Registry coherence is preserved by any operation whose registry frame has
the stop shape: when the watcher was active, deactivate it and erase its node;
otherwise leave list and activity untouched (fd bookkeeping aside). -/
theorem RegInv_of_stop_shape (s s' : Sys) (i : Nat)
    (hw : s'.ctx.watchers =
       if 0 < (s.store i).active then s.ctx.watchers.erase i else s.ctx.watchers)
    (hself : (s'.store i).active = if 0 < (s.store i).active then 0 else (s.store i).active)
    (hty : ∀ j, (s'.store j).wtype = (s.store j).wtype)
    (hother : ∀ j, j ≠ i → (s'.store j).active = (s.store j).active)
    (hInv : RegInv s) : RegInv s' := by
  obtain ⟨hnd, h2⟩ := hInv
  by_cases h : 0 < (s.store i).active
  · rw [if_pos h] at hw hself
    refine ⟨by rw [hw]; exact hnd.erase i, fun j => ?_⟩
    by_cases hj : j = i
    · subst hj
      refine ⟨Or.inl hself, iff_of_false ?_ ?_, fun hne => absurd hself hne⟩
      · rw [hself]
        exact fun hc => hc rfl
      · rw [hw]
        exact hnd.not_mem_erase
    · have ha := hother j hj
      exact ⟨by rw [ha]; exact (h2 j).1,
             by rw [ha, hw, List.mem_erase_of_ne hj]; exact (h2 j).2.1,
             by rw [ha, hty j]; exact (h2 j).2.2⟩
  · rw [if_neg h] at hw hself
    refine ⟨by rw [hw]; exact hnd, fun j => ?_⟩
    by_cases hj : j = i
    · subst hj
      exact ⟨by rw [hself]; exact (h2 j).1, by rw [hself, hw]; exact (h2 j).2.1,
             by rw [hself, hty j]; exact (h2 j).2.2⟩
    · have ha := hother j hj
      exact ⟨by rw [ha]; exact (h2 j).1, by rw [ha, hw]; exact (h2 j).2.1,
             by rw [ha, hty j]; exact (h2 j).2.2⟩

/-- Registry coherence is preserved by `_ml_watcher_start` on a watcher of an
implemented kind, provided the `epoll_ctl` outcome does not take the
permission-denied stdin path. -/
theorem RegInv_start (s : Sys) (i : Nat) (res : Option Nat)
    (hfs : (s.store i).wtype ≠ MlType.fs)
    (hnp : ¬(res = some EPERM ∧ (s.store i).wtype = MlType.io ∧
             (s.store i).events = MINILOOP_READ ∧ (s.store i).fd = 0))
    (hInv : RegInv s) : RegInv ((_ml_watcher_start res (some i) s).2) := by
  obtain ⟨hnd, h2⟩ := hInv
  simp only [_ml_watcher_start]
  by_cases hg : ((s.store i).fd < 0 ∨ ¬((s.store i).hasCtx = true))
  · simp only [if_pos hg]
    exact ⟨hnd, h2⟩
  simp only [if_neg hg]
  by_cases hA : 0 < (s.store i).active
  · simp only [if_pos hA]
    exact ⟨hnd, h2⟩
  simp only [if_neg hA]
  have hA0 : (s.store i).active = 0 := by
    rcases (h2 i).1 with h0 | h1
    · exact h0
    · exact absurd (h1 ▸ Int.zero_lt_one) hA
  have hnm : i ∉ s.ctx.watchers := by
    intro hm
    exact absurd hA0 ((h2 i).2.1.mpr hm)
  rcases res with _ | e
  · refine ⟨List.nodup_cons.mpr ⟨hnm, hnd⟩, fun j => ?_⟩
    by_cases hj : j = i
    · subst hj
      refine ⟨Or.inr (by simp [pushK, modW, updW]), ?_, ?_⟩
      · simp [pushK, modW, updW]
      · intro _
        simpa [pushK, modW, updW] using hfs
    · refine ⟨by simp [pushK, modW, updW, hj]; exact (h2 j).1, ?_, ?_⟩
      · simp only [pushK, modW, updW, if_neg hj]
        rw [List.mem_cons]
        constructor
        · intro hne
          exact Or.inr ((h2 j).2.1.mp hne)
        · intro hm
          rcases hm with hm | hm
          · exact absurd hm hj
          · exact (h2 j).2.1.mpr hm
      · intro hne
        have := (h2 j).2.2 (by simpa [pushK, modW, updW, hj] using hne)
        simpa [pushK, modW, updW, hj] using this
  · by_cases hE : e ≠ EPERM
    · simp only [if_pos hE]
      exact ⟨hnd, h2⟩
    by_cases hio : ((s.store i).wtype ≠ MlType.io ∨ (s.store i).events ≠ MINILOOP_READ)
    · simp only [if_neg hE, if_pos hio]
      exact ⟨hnd, h2⟩
    by_cases hf : (s.store i).fd ≠ 0
    · simp only [if_neg hE, if_neg hio, if_pos hf]
      exact ⟨hnd, h2⟩
    exfalso
    push_neg at hio hf hE
    exact hnp ⟨by rw [hE], hio.1, hio.2, hf⟩

/-- Activity of the processed watcher after one `ml_exit` step: an active
watcher of an implemented kind is stopped, anything else keeps its activity. -/
theorem exitStep_active_self (ex : Nat → Bool) (i : Nat) (s : Sys)
    (hfs : (s.store i).wtype ≠ MlType.fs) :
    ((exitStep ex i s).store i).active =
      if 0 < (s.store i).active then 0 else (s.store i).active := by
  by_cases hA : 0 < (s.store i).active
  · rcases hty : (s.store i).wtype with _ | _ | _ | _ | _
    · simp only [exitStep, hty, if_neg (not_not_intro hA), if_pos hA]
      exact (watcher_stop_shape (ex i) i _).2.1.trans (by simp [hA])
    · simp only [exitStep, hty, if_neg (not_not_intro hA), if_pos hA]
      exact (signal_stop_shape (ex i) i _).2.1.trans (by simp [hA])
    · simp only [exitStep, hty, if_neg (not_not_intro hA), if_pos hA]
      exact (timer_stop_shape (ex i) i _).2.1.trans (by simp [hA])
    · exact absurd hty hfs
    · simp only [exitStep, hty, if_neg (not_not_intro hA), if_pos hA]
      exact (event_stop_shape (ex i) i _).2.1.trans (by simp [hA])
  · simp [exitStep, hA]

/-- Activity of the other watchers is untouched by one `ml_exit` step. -/
theorem exitStep_active_other (ex : Nat → Bool) (i : Nat) (s : Sys) (j : Nat)
    (hj : j ≠ i) :
    ((exitStep ex i s).store j).active = (s.store j).active := by
  by_cases hA : 0 < (s.store i).active
  · rcases hty : (s.store i).wtype with _ | _ | _ | _ | _ <;>
      simp only [exitStep, hty, if_neg (not_not_intro hA)]
    · exact (watcher_stop_shape (ex i) i _).2.2.2 j hj
    · exact (signal_stop_shape (ex i) i _).2.2.2 j hj
    · exact (timer_stop_shape (ex i) i _).2.2.2 j hj
    · exact (event_stop_shape (ex i) i _).2.2.2 j hj
  · simp [exitStep, hA]

/-- Kind tags are untouched by one `ml_exit` step. -/
theorem exitStep_wtype (ex : Nat → Bool) (i : Nat) (s : Sys) (j : Nat) :
    ((exitStep ex i s).store j).wtype = (s.store j).wtype := by
  by_cases hA : 0 < (s.store i).active
  · rcases hty : (s.store i).wtype with _ | _ | _ | _ | _ <;>
      simp only [exitStep, hty, if_neg (not_not_intro hA)]
    · exact (watcher_stop_shape (ex i) i _).2.2.1 j
    · exact (signal_stop_shape (ex i) i _).2.2.1 j
    · exact (timer_stop_shape (ex i) i _).2.2.1 j
    · exact (event_stop_shape (ex i) i _).2.2.1 j
  · simp [exitStep, hA]

/-- After the `ml_exit` stop loop over a list containing every active watcher,
with all activities in `{0, 1}` and no active watcher of the unimplemented
`Fs` kind, every watcher is inactive. -/
theorem exitLoop_store_active (ex : Nat → Bool) :
    ∀ (todo : List Nat) (s : Sys),
      (∀ i, (s.store i).active = 0 ∨ (s.store i).active = 1) →
      (∀ i, (s.store i).active ≠ 0 → (s.store i).wtype ≠ MlType.fs) →
      (∀ i, (s.store i).active ≠ 0 → i ∈ todo) →
      ∀ i, ((exitLoop ex todo s).store i).active = 0
  | [], s, h01, _, hmem, i => by
    rcases h01 i with h0 | h1
    · simpa [exitLoop] using h0
    · exact absurd (hmem i (by rw [h1]; exact one_ne_zero)) (List.not_mem_nil i)
  | t :: rest, s, h01, hfs, hmem, i => by
    simp only [exitLoop]
    by_cases hft : (s.store t).active ≠ 0 ∧ (s.store t).wtype = MlType.fs
    · exact absurd hft.2 (hfs t hft.1)
    have hfs2 : (s.store t).wtype ≠ MlType.fs ∨ (s.store t).active = 0 := by
      by_cases hz : (s.store t).active = 0
      · exact Or.inr hz
      · exact Or.inl (hfs t hz)
    have hself : ((exitStep ex t s).store t).active = 0 ∨
        ((exitStep ex t s).store t).active = (s.store t).active := by
      rcases hfs2 with hne | hz
      · rw [exitStep_active_self ex t s hne]
        by_cases hA : 0 < (s.store t).active
        · exact Or.inl (by rw [if_pos hA])
        · exact Or.inr (by rw [if_neg hA])
      · right
        by_cases hA : 0 < (s.store t).active
        · exact absurd hz (by intro h0; rw [h0] at hA; exact lt_irrefl 0 hA)
        · simp [exitStep, hA]
    refine exitLoop_store_active ex rest (exitStep ex t s) (fun j => ?_) (fun j hj => ?_)
      (fun j hj => ?_) i
    · by_cases hjt : j = t
      · subst hjt
        rcases hself with h0 | he
        · exact Or.inl h0
        · rw [he]; exact h01 j
      · rw [exitStep_active_other ex t s j hjt]; exact h01 j
    · rw [exitStep_wtype]
      by_cases hjt : j = t
      · subst hjt
        rcases hself with h0 | he
        · exact absurd h0 hj
        · exact hfs j (by rw [he] at hj; exact hj)
      · rw [exitStep_active_other ex t s j hjt] at hj
        exact hfs j hj
    · by_cases hjt : j = t
      · subst hjt
        exfalso
        rcases hself with h0 | he
        · exact hj h0
        · rw [he] at hj
          rcases h01 j with h0 | h1
          · exact hj h0
          · -- j (= t) is active, so the step stopped it unless it is Fs,
            -- which is excluded; derive the contradiction via the self lemma
            rcases hfs2 with hne | hz
            · rw [exitStep_active_self ex j s hne, if_pos (by rw [h1]; exact Int.zero_lt_one)] at he
              rw [← he] at h1
              exact absurd h1 (by decide)
            · exact hj hz
      · have := hmem j (by rw [exitStep_active_other ex t s j hjt] at hj; exact hj)
        rcases List.mem_cons.mp this with hc | hc
        · exact absurd hc hjt
        · exact hc

/-- Projections of the `ml_exit` result: the list head is cleared, and the
watcher store is the one the stop loop produced. -/
theorem ml_exit_snd_proj (ex : Nat → Bool) (s : Sys) :
    ((ml_exit ex true s).2).ctx.watchers = [] ∧
    ((ml_exit ex true s).2).store = (exitLoop ex s.ctx.watchers s).store := by
  constructor <;> simp [ml_exit, closeFd] <;> split <;> rfl

/-- Registry coherence is preserved by `ml_exit`. -/
theorem RegInv_exit (ex : Nat → Bool) (s : Sys) (hInv : RegInv s) :
    RegInv ((ml_exit ex true s).2) := by
  obtain ⟨hw, hs⟩ := ml_exit_snd_proj ex s
  obtain ⟨hnd, h2⟩ := hInv
  have hall : ∀ i, (((ml_exit ex true s).2).store i).active = 0 := by
    intro i
    rw [hs]
    exact exitLoop_store_active ex s.ctx.watchers s (fun j => (h2 j).1)
      (fun j hj => (h2 j).2.2 hj) (fun j hj => (h2 j).2.1.mp hj) i
  refine ⟨by rw [hw]; exact List.nodup_nil, fun i => ?_⟩
  exact ⟨Or.inl (hall i),
         iff_of_false (fun hc => hc (hall i)) (by rw [hw]; exact List.not_mem_nil i),
         fun hc => absurd (hall i) hc⟩

/-- Registry coherence is preserved by every operation step. -/
theorem RegInv_step {s s' : Sys} (h : CohStep s s') (hInv : RegInv s) : RegInv s' := by
  cases h with
  | start i res _ hfs hnp => exact RegInv_start _ i res hfs hnp hInv
  | stop i dOk _ =>
    obtain ⟨a, b, c, d⟩ := watcher_stop_shape dOk i s
    exact RegInv_of_stop_shape _ _ i a b c d hInv
  | stopIo i dOk _ =>
    obtain ⟨a, b, c, d⟩ := watcher_stop_shape dOk i s
    exact RegInv_of_stop_shape _ _ i a b c d hInv
  | stopSignal i dOk _ =>
    obtain ⟨a, b, c, d⟩ := signal_stop_shape dOk i s
    exact RegInv_of_stop_shape _ _ i a b c d hInv
  | stopTimer i dOk _ =>
    obtain ⟨a, b, c, d⟩ := timer_stop_shape dOk i s
    exact RegInv_of_stop_shape _ _ i a b c d hInv
  | stopEvent i dOk _ =>
    obtain ⟨a, b, c, d⟩ := event_stop_shape dOk i s
    exact RegInv_of_stop_shape _ _ i a b c d hInv
  | exit ex _ => exact RegInv_exit ex s hInv

/-- Registry coherence is preserved along any sequence of operation steps. -/
theorem RegInv_reach {a b : Sys} (h : Relation.ReflTransGen CohStep a b)
    (ha : RegInv a) : RegInv b := by
  induction h with
  | refl => exact ha
  | tail _ hstep ih => exact RegInv_step hstep ih

/-! ## Claim theorems -/

/-- C8: context init fails to allocate one of the two kernel fds while the
other allocation succeeded.  The claim states the partially allocated fd is
closed before returning; the code (`_init`, miniloop.c) returns -1 without
closing it: `ml_init(ctx, 1)` with `epoll_create1` returning fd 3 and
`inotify_init1` failing reports -1 and leaves fd 3 open, and symmetrically with
`epoll_create1` failing and `inotify_init1` returning fd 4. -/
theorem C8_partial_fd_not_closed :
    (ml_init (some 3) none true 1 sys0).1 = -1 ∧
    ((ml_init (some 3) none true 1 sys0).2).openFds = [3] ∧
    (ml_init none (some 4) true 1 sys0).1 = -1 ∧
    ((ml_init none (some 4) true 1 sys0).2).openFds = [4] := by
  refine ⟨by decide, by decide, by decide, by decide⟩

/-- C10: starting a watcher that is already active (`active > 0`) is
idempotent: `_ml_watcher_start` returns 0 with the state entirely unchanged —
in particular no kernel registration is issued (no trace growth) and the node
is not inserted into the watcher list a second time. -/
theorem C10_start_idempotent (s : Sys) (i : Nat) (res : Option Nat)
    (hfd : 0 ≤ (s.store i).fd) (hctx : (s.store i).hasCtx = true)
    (hact : 0 < (s.store i).active) :
    _ml_watcher_start res (some i) s = (0, s) := by
  have h1 : ¬((s.store i).fd < 0 ∨ ¬(s.store i).hasCtx = true) := by
    push_neg
    exact ⟨hfd, hctx⟩
  simp [_ml_watcher_start, h1, hact, hctx, hfd]

/-- C10 witness: watcher 0 of `sC1base` is active with fd 5; starting it again
returns 0 and changes nothing. -/
theorem C10_start_idempotent_witness :
    _ml_watcher_start none (some 0) sC1base = (0, sC1base) :=
  C10_start_idempotent sC1base 0 none (by decide) (by decide) (by decide)

/-- C7: on an active I/O watcher, `ml_io_set` with the one-shot bit in the
requested events performs only a kernel modify via `_ml_watcher_rearm`: the
watcher store (hence the list node) is untouched, the context watcher list is
unchanged, and the only effect is one `EPOLL_CTL_MOD` appended to the kernel
trace. -/
theorem C7_oneshot_set_is_modify (s : Sys) (i : Nat) (o : IoOra) (fd : Int) (ev : Nat)
    (hact : 0 < (s.store i).active) (hone : ev &&& MINILOOP_ONESHOT ≠ 0)
    (hfd : 0 ≤ (s.store i).fd) :
    ml_io_set o (some i) fd ev s = some (_ml_watcher_rearm o.modOk (some i) s) ∧
    ((_ml_watcher_rearm o.modOk (some i) s).2).ctx.watchers = s.ctx.watchers ∧
    ((_ml_watcher_rearm o.modOk (some i) s).2).store = s.store ∧
    ((_ml_watcher_rearm o.modOk (some i) s).2).ktrace =
      s.ktrace ++ [KOp.mod s.ctx.fd ((s.store i).fd) ((s.store i).events ||| EPOLLRDHUP) i] := by
  have hsnd : (_ml_watcher_rearm o.modOk (some i) s).2 =
      pushK s (KOp.mod s.ctx.fd ((s.store i).fd) ((s.store i).events ||| EPOLLRDHUP) i) := by
    cases o.modOk <;> simp [_ml_watcher_rearm, Int.not_lt.mpr hfd]
  refine ⟨by simp [ml_io_set, _ml_watcher_active, hone, hact], ?_, ?_, ?_⟩ <;>
    rw [hsnd] <;> simp [pushK]

/-- C7 witness: watcher 0 of `sC1base` is active; a one-shot set on it is the
kernel modify, leaving the list unchanged. -/
theorem C7_oneshot_set_is_modify_witness :
    ml_io_set ioOraOk (some 0) 9 (MINILOOP_READ ||| MINILOOP_ONESHOT) sC1base =
      some (_ml_watcher_rearm true (some 0) sC1base) ∧
    ((_ml_watcher_rearm true (some 0) sC1base).2).ctx.watchers = sC1base.ctx.watchers := by
  have h := C7_oneshot_set_is_modify sC1base 0 ioOraOk 9 (MINILOOP_READ ||| MINILOOP_ONESHOT)
    (by decide) (by decide) (by decide)
  exact ⟨h.1, h.2.1⟩

/-- C9: on an active I/O watcher with the one-shot bit in the new events
argument, `ml_io_set(w, fd, events)` re-arms the kernel registration from the
watcher's stored `fd` and `events` fields: the result does not depend on the
`fd` and `events` arguments (beyond the one-shot test), the issued modify
carries `w->fd` and `w->events | EPOLLRDHUP`, and the stored `fd` and `events`
fields are left unchanged. -/
theorem C9_rearm_discards_arguments (s : Sys) (i : Nat) (o : IoOra)
    (fd fd' : Int) (ev ev' : Nat)
    (hact : 0 < (s.store i).active) (hone : ev &&& MINILOOP_ONESHOT ≠ 0)
    (hone' : ev' &&& MINILOOP_ONESHOT ≠ 0) (hfd : 0 ≤ (s.store i).fd) :
    ml_io_set o (some i) fd ev s = ml_io_set o (some i) fd' ev' s ∧
    ml_io_set o (some i) fd ev s =
      some (if o.modOk then 0 else -1,
            pushK s (KOp.mod s.ctx.fd ((s.store i).fd) ((s.store i).events ||| EPOLLRDHUP) i)) ∧
    (((pushK s (KOp.mod s.ctx.fd ((s.store i).fd) ((s.store i).events ||| EPOLLRDHUP) i)).store i).fd
        = (s.store i).fd) ∧
    (((pushK s (KOp.mod s.ctx.fd ((s.store i).fd) ((s.store i).events ||| EPOLLRDHUP) i)).store i).events
        = (s.store i).events) := by
  have key : ∀ e : Nat, e &&& MINILOOP_ONESHOT ≠ 0 → ∀ f : Int,
      ml_io_set o (some i) f e s =
        some (if o.modOk then 0 else -1,
              pushK s (KOp.mod s.ctx.fd ((s.store i).fd) ((s.store i).events ||| EPOLLRDHUP) i)) := by
    intro e he f
    have : ml_io_set o (some i) f e s = some (_ml_watcher_rearm o.modOk (some i) s) := by
      simp [ml_io_set, _ml_watcher_active, he, hact]
    rw [this]
    cases hm : o.modOk <;> simp [_ml_watcher_rearm, Int.not_lt.mpr hfd, hm]
  refine ⟨?_, key ev hone fd, rfl, rfl⟩
  rw [key ev hone fd, key ev' hone' fd']

/-- C9 witness: the one-shot set on active watcher 0 of `sC1base` produces the
same result for two different `(fd, events)` argument pairs. -/
theorem C9_rearm_discards_arguments_witness :
    ml_io_set ioOraOk (some 0) 9 (MINILOOP_READ ||| MINILOOP_ONESHOT) sC1base =
      ml_io_set ioOraOk (some 0) 42 (MINILOOP_WRITE ||| MINILOOP_ONESHOT) sC1base :=
  (C9_rearm_discards_arguments sC1base 0 ioOraOk 9 42
    (MINILOOP_READ ||| MINILOOP_ONESHOT) (MINILOOP_WRITE ||| MINILOOP_ONESHOT)
    (by decide) (by decide) (by decide) (by decide)).1

/-- C2 counterexample: the claim states every operation called with a null
Watcher returns non-zero with the error indicator set to invalid-argument.
`ml_signal_stop(NULL)` (src/unnamed/part_002) treats a null watcher as inactive
and returns 0 without touching the state, and `sys0.errno` is not `EINVAL`. -/
theorem C2_counterexample :
    ml_signal_stop true none sys0 = (0, sys0) ∧ sys0.errno ≠ EINVAL :=
  ⟨rfl, by decide⟩

/-- C2 (amended): every watcher operation of every adapter rejects a null
Context or null Watcher with a non-zero return, `errno = EINVAL`, and no other
state change — except that `ml_signal_stop` on a null watcher returns 0 with
the state untouched (it treats NULL as inactive), and `ml_io_set` and
`ml_io_start` dereference a null watcher (undefined behavior, modelled as
`none`) instead of reporting invalid-argument.  The timer and event operations
are the spec-modelled ones (their sources are not under src/) and follow the
spec's shared contract. -/
theorem C2_null_invalid_argument (s : Sys) :
    (∀ o cb a fd ev w?, ml_io_init o false w? cb a fd ev s = (-1, setErrno s EINVAL)) ∧
    (∀ o cb a fd ev, ml_io_init o true none cb a fd ev s = (-1, setErrno s EINVAL)) ∧
    (∀ o fd ev, ml_io_set o none fd ev s = none) ∧
    (∀ o, ml_io_start o none s = none) ∧
    (∀ dOk, ml_io_stop dOk none s = (-1, setErrno s EINVAL)) ∧
    (∀ fuel o cb a sg w?, ml_signal_init fuel o false w? cb a sg s = some (-1, setErrno s EINVAL)) ∧
    (∀ fuel o cb a sg, ml_signal_init fuel o true none cb a sg s = some (-1, setErrno s EINVAL)) ∧
    (∀ fuel o sg, ml_signal_set fuel o none sg s = some (-1, setErrno s EINVAL)) ∧
    (∀ fuel o sg i, (s.store i).hasCtx = false →
       ml_signal_set fuel o (some i) sg s = some (-1, setErrno s EINVAL)) ∧
    (∀ fuel o, ml_signal_start fuel o none s = some (-1, setErrno s EINVAL)) ∧
    (∀ dOk, ml_signal_stop dOk none s = (0, s)) ∧
    (∀ o cb a t p w?, ml_timer_init o false w? cb a t p s = (-1, setErrno s EINVAL)) ∧
    (∀ o cb a t p, ml_timer_init o true none cb a t p s = (-1, setErrno s EINVAL)) ∧
    (∀ o t p, ml_timer_set o none t p s = (-1, setErrno s EINVAL)) ∧
    (∀ o, ml_timer_start o none s = (-1, setErrno s EINVAL)) ∧
    (∀ dOk, ml_timer_stop dOk none s = (-1, setErrno s EINVAL)) ∧
    (∀ o cb a w?, ml_event_init o false w? cb a s = (-1, setErrno s EINVAL)) ∧
    (∀ o cb a, ml_event_init o true none cb a s = (-1, setErrno s EINVAL)) ∧
    (ml_event_post none s = (-1, setErrno s EINVAL)) ∧
    (∀ dOk, ml_event_stop dOk none s = (-1, setErrno s EINVAL)) := by
  refine ⟨?_, ?_, ?_, ?_, ?_, ?_, ?_, ?_, ?_, ?_, ?_, ?_, ?_, ?_, ?_, ?_, ?_, ?_, ?_, ?_⟩
  · intro o cb a fd ev w?
    cases w? <;> by_cases hfd : fd < 0 <;> simp [ml_io_init, _ml_watcher_init, hfd]
  · intro o cb a fd ev
    by_cases hfd : fd < 0 <;> simp [ml_io_init, _ml_watcher_init, hfd]
  · intro o fd ev
    simp [ml_io_set, _ml_watcher_active]
  · intro o
    rfl
  · intro dOk
    rfl
  · intro fuel o cb a sg w?
    cases w? <;> simp [ml_signal_init]
  · intro fuel o cb a sg
    simp [ml_signal_init]
  · intro fuel o sg
    simp [ml_signal_set]
  · intro fuel o sg i hctx
    simp [ml_signal_set, hctx]
  · intro fuel o
    simp [ml_signal_start]
  · intro dOk
    rfl
  · intro o cb a t p w?
    cases w? <;> rfl
  · intro o cb a t p
    rfl
  · intro o t p
    rfl
  · intro o
    rfl
  · intro dOk
    rfl
  · intro o cb a w?
    cases w? <;> rfl
  · intro o cb a
    rfl
  · rfl
  · intro dOk
    rfl

/-- C2 witness: the amended statement instantiated on the base state — the
null-watcher stop of the I/O adapter reports `EINVAL`, the signal set on a
watcher with a null context back-pointer reports `EINVAL`, and the
null-watcher signal stop returns 0 untouched. -/
theorem C2_null_invalid_argument_witness :
    ml_io_stop true none sys0 = (-1, setErrno sys0 EINVAL) ∧
    ml_signal_set 2 sigOraT (some 0) 5 sys0 = some (-1, setErrno sys0 EINVAL) ∧
    ml_signal_stop true none sys0 = (0, sys0) := by
  have h := C2_null_invalid_argument sys0
  exact ⟨h.2.2.2.2.1 true,
         h.2.2.2.2.2.2.2.2.1 2 sigOraT 5 0 (by decide),
         h.2.2.2.2.2.2.2.2.2.2.1 true⟩

/-- C3 counterexample: watcher 0 of `sysPseudo` is Pseudo-Active
(`active = -1`) and on the list; the claim states a stop operation transitions
it to Inactive and removes it, but every stop (generic, I/O, signal) returns 0
and leaves the state — hence the pseudo-registration and the list membership —
untouched. -/
theorem C3_counterexample :
    (sysPseudo.store 0).active = -1 ∧ 0 ∈ sysPseudo.ctx.watchers ∧
    _ml_watcher_stop true (some 0) sysPseudo = (0, sysPseudo) ∧
    ml_io_stop true (some 0) sysPseudo = (0, sysPseudo) ∧
    ml_signal_stop true (some 0) sysPseudo = (0, sysPseudo) :=
  ⟨by decide, by decide, rfl, rfl, rfl⟩

/-- C3 (amended): on a Pseudo-Active watcher (`active = -1`), a stop operation
is a no-op — the stops treat only `active > 0` as active and return 0 with the
state unchanged — while an empty readiness probe during the workaround pass
does transition it to Inactive (`active = 0`) and removes it from the context
watcher list before the callback is invoked with `MINILOOP_READ`. -/
theorem C3_pseudo_stop_noop_empty_probe_removes (s : Sys) (i c : Nat)
    (hA : (s.store i).active = -1) :
    (∀ dOk, _ml_watcher_stop dOk (some i) s = (0, s)) ∧
    (∀ dOk, ml_io_stop dOk (some i) s = (0, s)) ∧
    (∀ dOk, ml_signal_stop dOk (some i) s = (0, s)) ∧
    (((deactivateRemove i s).store i).active = 0) ∧
    (s.ctx.watchers.Nodup → i ∉ (deactivateRemove i s).ctx.watchers) ∧
    (∀ cbI probe rest, (s.store i).cb = some c → probe i = false →
      waPass cbI probe (i :: rest) s =
        ((waPass cbI probe rest
            (invoke cbI c i ((s.store i).arg) MINILOOP_READ (deactivateRemove i s))).1 + 1,
         (waPass cbI probe rest
            (invoke cbI c i ((s.store i).arg) MINILOOP_READ (deactivateRemove i s))).2)) := by
  have hno : ¬(0 : Int) < (s.store i).active := by rw [hA]; decide
  refine ⟨?_, ?_, ?_, ?_, ?_, ?_⟩
  · intro dOk
    exact watcher_stop_snd_inactive dOk i s hno
  · intro dOk
    exact watcher_stop_snd_inactive dOk i s hno
  · intro dOk
    simp [ml_signal_stop, hno]
  · simp [deactivateRemove, modW, updW]
  · intro hnd
    simp only [deactivateRemove]
    exact hnd.not_mem_erase
  · intro cbI probe rest hcb hpr
    rcases h2 : waPass cbI probe rest
        (invoke cbI c i ((s.store i).arg) MINILOOP_READ (deactivateRemove i s)) with ⟨n, s3⟩
    simp [waPass, hcb, hA, hpr, h2]

/-- C3 witness: the amended statement instantiated on `sysPseudo` (watcher 0
pseudo-active, callback id 7): the stop is a no-op, and the empty probe during
the pass deactivates and removes watcher 0. -/
theorem C3_pseudo_stop_noop_empty_probe_removes_witness :
    _ml_watcher_stop true (some 0) sysPseudo = (0, sysPseudo) ∧
    ((deactivateRemove 0 sysPseudo).store 0).active = 0 ∧
    0 ∉ (deactivateRemove 0 sysPseudo).ctx.watchers ∧
    waPass cbTriv (fun _ => false) [0] sysPseudo =
      ((waPass cbTriv (fun _ => false) []
          (invoke cbTriv 7 0 ((sysPseudo.store 0).arg) MINILOOP_READ
            (deactivateRemove 0 sysPseudo))).1 + 1,
       (waPass cbTriv (fun _ => false) []
          (invoke cbTriv 7 0 ((sysPseudo.store 0).arg) MINILOOP_READ
            (deactivateRemove 0 sysPseudo))).2) := by
  have h := C3_pseudo_stop_noop_empty_probe_removes sysPseudo 0 7 (by decide)
  exact ⟨h.1 true, h.2.2.2.1, h.2.2.2.2.1 (by decide),
         h.2.2.2.2.2 cbTriv (fun _ => false) [] (by decide) rfl⟩

/-- C1 counterexample: `sC1base` has two active I/O watchers (0 and 1), both
with callbacks; the single `epoll_wait` batch carries ready records for both,
and the callback of watcher 0 clears the running flag.  The claim states the
dispatcher completes the batch, dispatching every remaining ready record; on
the code the callback of watcher 1 is never invoked — `ml_run` returns 0 with
exactly one recorded invocation. -/
theorem C1_counterexample :
    (ml_run cbStop 2 toraNone orsC1 true 0 sC1base).map (fun p => (p.1, p.2.calls)) =
      some (0, [(0, MINILOOP_READ)]) ∧
    (sC1base.store 1).cb = some 1 ∧
    orsC1 = [{ probe := fun _ => false, wres := .ready [recC1 0, recC1 1],
               exDel := fun _ => true }] :=
  ⟨by decide, by decide, rfl⟩

/-- C1 (amended): once a callback has cleared the running flag, the dispatcher
does not dispatch any remaining ready record of the batch — the inner loop
checks `running` before each record — and the main loop of `ml_run` then
returns 0 from `run`. -/
theorem C1_running_cleared_ends_dispatch (cbI : CbInterp) (fuel : Nat) (s : Sys)
    (hrun : s.ctx.running = 0) :
    (∀ recs, dispatchRecs cbI fuel recs s = some s) ∧
    (∀ flags ors, mlRunLoop cbI fuel flags ors s = some (0, s)) := by
  constructor
  · intro recs
    cases recs <;> simp [dispatchRecs, hrun]
  · intro flags ors
    cases ors <;> simp [mlRunLoop, hrun]

/-- C1 witness: on the base state (running flag cleared), a non-empty ready
batch dispatches nothing and the main loop returns 0. -/
theorem C1_running_cleared_ends_dispatch_witness :
    dispatchRecs cbTriv 2 [recC1 0] sys0 = some sys0 ∧
    mlRunLoop cbTriv 2 0 orsC1 sys0 = some (0, sys0) := by
  have h := C1_running_cleared_ends_dispatch cbTriv 2 sys0 rfl
  exact ⟨h.1 [recC1 0], h.2 0 orsC1⟩

/-- C4 counterexample: `sysPseudo` has the workaround flag set and one
pseudo-registered watcher whose probe reports data, so the pass sets the rerun
indicator.  The claim states the workaround flag is cleared after the pass; on
the code the rerun `continue` precedes the clearing assignment, and the
restarted iteration still carries `workaround = 1`. -/
theorem C4_counterexample :
    sysPseudo.ctx.workaround = 1 ∧
    iterNextWorkaround (ml_run_iter cbTriv 2
      { probe := fun _ => true, wres := .ready [], exDel := fun _ => true } sysPseudo) =
      some 1 :=
  ⟨by decide, by decide⟩

/-- C4 (amended): in an iteration of `ml_run` with the workaround flag set, if
the pass sets the rerun indicator the iteration restarts immediately with the
pass's final state — skipping both the `workaround = 0` assignment and the
kernel wait (the result does not depend on the wait behavior) — while if no
rerun was requested the iteration proceeds to the kernel wait from a state
whose workaround flag has been cleared. -/
theorem C4_rerun_restarts_without_clearing (cbI : CbInterp) (fuel : Nat)
    (probe : Nat → Bool) (exDel : Nat → Bool) (wres wres' : WaitRes) (s : Sys)
    (hW : s.ctx.workaround ≠ 0) :
    ((waPass cbI probe s.ctx.watchers s).1 ≠ 0 →
       ml_run_iter cbI fuel { probe := probe, wres := wres, exDel := exDel } s =
         some (.next (waPass cbI probe s.ctx.watchers s).2) ∧
       ml_run_iter cbI fuel { probe := probe, wres := wres, exDel := exDel } s =
         ml_run_iter cbI fuel { probe := probe, wres := wres', exDel := exDel } s) ∧
    ((waPass cbI probe s.ctx.watchers s).1 = 0 →
       ml_run_iter cbI fuel { probe := probe, wres := wres, exDel := exDel } s =
         iterWait cbI fuel wres exDel
           { (waPass cbI probe s.ctx.watchers s).2 with
             ctx := { ((waPass cbI probe s.ctx.watchers s).2).ctx with workaround := 0 } }) := by
  rcases hp : waPass cbI probe s.ctx.watchers s with ⟨n, s1⟩
  constructor
  · intro hn
    simp only at hn
    constructor <;> simp [ml_run_iter, hW, hp, hn]
  · intro hn
    simp only at hn
    simp [ml_run_iter, hW, hp, hn]

/-- C4 witness: the amended statement instantiated on `sysPseudo` with a
data-bearing probe (the pass requests a rerun): the iteration restarts with the
pass state and is independent of the wait behavior. -/
theorem C4_rerun_restarts_without_clearing_witness :
    ml_run_iter cbTriv 2
        { probe := fun _ => true, wres := .ready [], exDel := fun _ => true } sysPseudo =
      some (.next (waPass cbTriv (fun _ => true) sysPseudo.ctx.watchers sysPseudo).2) ∧
    ml_run_iter cbTriv 2
        { probe := fun _ => true, wres := .ready [], exDel := fun _ => true } sysPseudo =
      ml_run_iter cbTriv 2
        { probe := fun _ => true, wres := .fatal, exDel := fun _ => true } sysPseudo :=
  (C4_rerun_restarts_without_clearing cbTriv 2 (fun _ => true) (fun _ => true)
    (.ready []) .fatal sysPseudo (by decide)).1 (by decide)

/-- C5: during dispatch, an I/O watcher whose raw ready events contain
`EPOLLHUP` or `EPOLLERR` is stopped (its `active` flag is 0) before its
callback is invoked, and the callback is still invoked with the raw events
masked to `MINILOOP_EVENT_MASK` — a mask that preserves the HUP and ERR bits. -/
theorem C5_io_hup_err_stops_before_callback (cbI : CbInterp) (fuel : Nat) (s : Sys)
    (r : ReadyRec) (rest : List ReadyRec) (c : Nat)
    (hrun : s.ctx.running ≠ 0)
    (hty : (s.store r.wid).wtype = MlType.io)
    (hev : r.ev &&& (EPOLLHUP ||| EPOLLERR) ≠ 0)
    (hact : 0 < (s.store r.wid).active)
    (hcb : (s.store r.wid).cb = some c) :
    (((ml_io_stop r.delOk (some r.wid) s).2).store r.wid).active = 0 ∧
    dispatchRecs cbI fuel (r :: rest) s =
      dispatchRecs cbI fuel rest
        (invoke cbI c r.wid ((s.store r.wid).arg) (r.ev &&& MINILOOP_EVENT_MASK)
          ((ml_io_stop r.delOk (some r.wid) s).2)) ∧
    (r.ev &&& MINILOOP_EVENT_MASK) &&& (EPOLLHUP ||| EPOLLERR) =
      r.ev &&& (EPOLLHUP ||| EPOLLERR) := by
  have hstop := watcher_stop_snd_active r.delOk r.wid s hact
  have hstop' : (ml_io_stop r.delOk (some r.wid) s).2 =
      pushK { modW s r.wid (fun w => { w with active := 0 }) with
              ctx := { s.ctx with watchers := s.ctx.watchers.erase r.wid } }
        (KOp.del s.ctx.fd ((s.store r.wid).fd)) := by
    rw [ml_io_stop, hstop]
  refine ⟨?_, ?_, ?_⟩
  · rw [hstop']
    simp [pushK, modW, updW]
  · have hpre : preCallback fuel r s = some (r.ev, (ml_io_stop r.delOk (some r.wid) s).2) := by
      simp [preCallback, hty, hev]
    have hcb1 : (((ml_io_stop r.delOk (some r.wid) s).2).store r.wid).cb = some c := by
      rw [hstop']
      simp [pushK, modW, updW, hcb]
    have harg : (((ml_io_stop r.delOk (some r.wid) s).2).store r.wid).arg =
        (s.store r.wid).arg := by
      rw [hstop']
      simp [pushK, modW, updW]
    simp [dispatchRecs, hrun, hpre, hcb1, harg]
  · have hsub : MINILOOP_EVENT_MASK &&& (EPOLLHUP ||| EPOLLERR) = EPOLLHUP ||| EPOLLERR := by
      decide
    rw [Nat.land_assoc, hsub]

/-- C5 witness: watcher 0 of `sC1base` receives a record with `EPOLLIN` and
`EPOLLHUP`: the stop happens first (active = 0) and the callback is invoked
with the masked event bits. -/
theorem C5_io_hup_err_stops_before_callback_witness :
    (((ml_io_stop true (some 0) sC1run).2).store 0).active = 0 ∧
    dispatchRecs cbTriv 2
        [{ wid := 0, ev := EPOLLIN ||| EPOLLHUP, drainOk := true, delOk := true,
           sig := sigOraT }] sC1run =
      dispatchRecs cbTriv 2 []
        (invoke cbTriv 0 0 ((sC1run.store 0).arg)
          ((EPOLLIN ||| EPOLLHUP) &&& MINILOOP_EVENT_MASK)
          ((ml_io_stop true (some 0) sC1run).2)) := by
  have h := C5_io_hup_err_stops_before_callback cbTriv 2 sC1run
    { wid := 0, ev := EPOLLIN ||| EPOLLHUP, drainOk := true, delOk := true, sig := sigOraT }
    [] 0 (by decide) (by decide) (by decide) (by decide) (by decide)
  exact ⟨h.1, h.2.1⟩

/-- C6 counterexample: starting watcher 0 on stdin read-only with the
permission-denied `epoll_ctl` outcome pseudo-registers it (`sysPseudo`:
`active = -1`, on the list); the claimed equivalence then fails after a context
exit, which removes the watcher from the list while leaving `active = -1` — so
`active ≠ 0` holds and the list membership does not. -/
theorem C6_counterexample :
    (((ml_exit (fun _ => true) true sysPseudo).2).store 0).active = -1 ∧
    0 ∉ ((ml_exit (fun _ => true) true sysPseudo).2).ctx.watchers :=
  ⟨by decide, by decide⟩

/-- C6 (amended): registry coherence — every watcher satisfies `active ≠ 0`
iff it is on the context's watcher list — holds after every sequence of
watcher start, watcher stop (generic or any adapter's), and context exit
operations from a coherent state, provided no start takes the
permission-denied stdin path (which would create a pseudo-registered watcher,
the state `ml_exit` mishandles) and no watcher of the unimplemented `Fs` kind
is started. -/
theorem C6_registry_coherence (s0 s : Sys) (h0 : RegInv s0)
    (h : Relation.ReflTransGen CohStep s0 s) :
    ∀ i, ((s.store i).active ≠ 0 ↔ i ∈ s.ctx.watchers) :=
  fun i => ((RegInv_reach h h0).2 i).2.1

/-- C6 witness: from the coherent state `sPrep` (watcher 0 populated,
inactive, empty list), one successful generic start step reaches `sStart1`,
where watcher 0 is active and on the list — the coherence equivalence holds
there. -/
theorem C6_registry_coherence_witness :
    (sStart1.store 0).active ≠ 0 ↔ 0 ∈ sStart1.ctx.watchers :=
  C6_registry_coherence sPrep sStart1
    (by
      refine ⟨by simp [sPrep, sys0, zeroCtx], fun i => ?_⟩
      by_cases hi : i = 0 <;>
        simp [sPrep, sys0, zeroCtx, defaultWatcher, hi])
    (Relation.ReflTransGen.single (CohStep.start 0 none sPrep (by decide) (by decide)))
    0

end Miniloop

